import Mathlib

/-!
Shallow embedding of the ElectroLink storefront backend (`src/backend-files/app.py`)
and verification of the frozen claims about its catalog query engine.

Modelling conventions:
* A JSON product record is a `Product` structure whose fields are all optional,
  mirroring dictionary lookups `p.get(key)` / `p.get(key, default)` in the source.
* Python strings are Lean `String`s; `str.lower` / `str.strip` / substring tests /
  lexicographic comparison are re-implemented structurally over `List Char`
  (`lowerChar`, `pyLower`, `pyStrip`, `hasSub`, `lexLe`) so that the kernel can
  evaluate them on concrete inputs.
* Python numbers (`price`, the `min_price` / `max_price` query parameters) are `Rat`.
* `list.sort(key=..., reverse=...)` is a stable sort; it is modelled with
  `List.insertionSort` (stable) under the relation induced by the key, reversed
  for `reverse=True` (Python documents `reverse=True` as stable descending).
* File-system effects of the two loaders are modelled by an explicit `FileContent`
  input describing the state of the backing JSON document, and a raised Python
  exception is an `Except.error`.
* A Flask JSON response is an `ApiResp`: `ApiResp.ok status payload` renders the
  envelope `{success: true, ...}` and `ApiResp.err status msg` renders
  `{success: false, error: msg}`.
-/

/-- A product record, i.e. one JSON object of `data/products.json`.
Every field is optional because the source accesses fields with `dict.get`. -/
structure Product where
  id : Option Int
  name : Option String
  code : Option String
  description : Option String
  category : Option String
  price : Option Rat
  visible : Option Bool
deriving Repr, DecidableEq

/-- The translations document: language code to (message key to message text),
modelled as nested association lists. -/
def TransTable : Type := List (String × List (String × String))

instance : DecidableEq TransTable := by
  unfold TransTable
  infer_instance

/-- ASCII lowercasing of one character, as `str.lower` acts on ASCII letters. -/
def lowerChar (c : Char) : Char :=
  if 65 ≤ c.toNat ∧ c.toNat ≤ 90 then Char.ofNat (c.toNat + 32) else c

/-- Python `s.lower()` (restricted to its ASCII action). -/
def pyLower (s : String) : String := ⟨s.data.map lowerChar⟩

/-- Python `s.strip()`: remove leading and trailing whitespace. -/
def pyStrip (s : String) : String :=
  ⟨((s.data.dropWhile Char.isWhitespace).reverse.dropWhile Char.isWhitespace).reverse⟩

/-- Does the first list start with the second one?  Helper for `hasSub`. -/
def startsWithL : List Char → List Char → Bool
  | _, [] => true
  | [], _ :: _ => false
  | b :: bs, a :: as => a.toNat == b.toNat && startsWithL bs as

/-- Python `q in s` on strings: `hasSub s.data q.data` holds iff `q` occurs as a
contiguous substring of `s` (an empty `q` always occurs). -/
def hasSub : List Char → List Char → Bool
  | [], q => q.isEmpty
  | b :: bs, q => startsWithL (b :: bs) q || hasSub bs q

/-- Python lexicographic string comparison `a <= b`, by code points. -/
def lexLe : List Char → List Char → Bool
  | [], _ => true
  | _ :: _, [] => false
  | a :: as, b :: bs => if a.toNat = b.toNat then lexLe as bs else decide (a.toNat < b.toNat)

/-- The observable state of a backing JSON document when a loader opens it:
the file may be absent (Python raises `FileNotFoundError`), present but not
valid JSON (Python raises `json.JSONDecodeError`), or present with parsed
content `a`. -/
inductive FileContent (α : Type) where
  | missing
  | malformed
  | valid (a : α)

/-- `load_products` (app.py:17-25): `json.load` under a
`try/except (FileNotFoundError, json.JSONDecodeError)` that returns `[]`.
Both failure modes are caught, so the result is never an error. -/
def load_products : FileContent (List Product) → Except String (List Product)
  | .missing => .ok []
  | .malformed => .ok []
  | .valid ps => .ok ps

/-- `load_translations` (app.py:34-41): `json.load` under a
`try/except FileNotFoundError` that returns `{}`.  Only the missing-file case
is caught; a malformed document propagates `json.JSONDecodeError`. -/
def load_translations : FileContent TransTable → Except String TransTable
  | .missing => .ok []
  | .malformed => .error "json.JSONDecodeError"
  | .valid t => .ok t

/-- Did the modelled Python call raise an exception? -/
def raised {ε α : Type} : Except ε α → Bool
  | .error _ => true
  | .ok _ => false

/-- A Flask JSON response: `ok status payload` is an envelope with
`success: true`, `err status msg` is `{success: false, error: msg}` with the
given HTTP status code. -/
inductive ApiResp (α : Type) where
  | ok (status : Nat) (payload : α)
  | err (status : Nat) (error : String)
deriving Repr, DecidableEq

/-- Visibility step (app.py:110-111): `p.get('visible', True)` must be truthy. -/
def filterVisible (visibleOnly : Bool) (ps : List Product) : List Product :=
  if visibleOnly then ps.filter (fun p => p.visible.getD true) else ps

/-- Category step (app.py:114-115): `p.get('category') == category`; a record
with no category field yields `None`, which equals no string. -/
def filterCategory (category : String) (ps : List Product) : List Product :=
  if category ≠ "all" then ps.filter (fun p => decide (p.category = some category)) else ps

/-- Minimum-price step (app.py:118-119): `p.get('price', 0) >= min_price`. -/
def filterMinPrice (minPrice : Option Rat) (ps : List Product) : List Product :=
  match minPrice with
  | none => ps
  | some m => ps.filter (fun p => decide (p.price.getD 0 ≥ m))

/-- Maximum-price step (app.py:120-121): `p.get('price', 0) <= max_price`. -/
def filterMaxPrice (maxPrice : Option Rat) (ps : List Product) : List Product :=
  match maxPrice with
  | none => ps
  | some m => ps.filter (fun p => decide (p.price.getD 0 ≤ m))

/-- The filter stage of `get_products` (app.py:109-121), in source order:
visibility, category, minimum price, maximum price. -/
def applyFilters (visibleOnly : Bool) (category : String) (minPrice maxPrice : Option Rat)
    (ps : List Product) : List Product :=
  filterMaxPrice maxPrice (filterMinPrice minPrice (filterCategory category (filterVisible visibleOnly ps)))

/-- Sort key for the name sorts (app.py:125): `x.get('name', '').lower()`. -/
def nameKey (p : Product) : List Char := (pyLower (p.name.getD "")).data

/-- Sort key for the price sorts (app.py:129): `x.get('price', 0)`. -/
def priceKey (p : Product) : Rat := p.price.getD 0

/-- Comparison used by `sort=name-asc`. -/
def nameAscRel (a b : Product) : Prop := lexLe (nameKey a) (nameKey b) = true

/-- Comparison used by `sort=name-desc` (stable descending). -/
def nameDescRel (a b : Product) : Prop := lexLe (nameKey b) (nameKey a) = true

/-- Comparison used by `sort=price-asc`. -/
def priceAscRel (a b : Product) : Prop := priceKey a ≤ priceKey b

/-- Comparison used by `sort=price-desc` (stable descending). -/
def priceDescRel (a b : Product) : Prop := priceKey b ≤ priceKey a

instance : DecidableRel nameAscRel :=
  fun a b => inferInstanceAs (Decidable (_ = true))

instance : DecidableRel nameDescRel :=
  fun a b => inferInstanceAs (Decidable (_ = true))

instance : DecidableRel priceAscRel :=
  fun a b => inferInstanceAs (Decidable (_ ≤ _))

instance : DecidableRel priceDescRel :=
  fun a b => inferInstanceAs (Decidable (_ ≤ _))

/-- The sort stage of `get_products` (app.py:123-131).  Python `list.sort` is a
stable sort, modelled by the stable `List.insertionSort`; `reverse=True` is a
stable sort under the reversed comparison.  Any unrecognised value falls
through the `if/elif` chain and leaves the list untouched. -/
def sortStep (sortBy : String) (ps : List Product) : List Product :=
  if sortBy = "name-asc" then ps.insertionSort nameAscRel
  else if sortBy = "name-desc" then ps.insertionSort nameDescRel
  else if sortBy = "price-asc" then ps.insertionSort priceAscRel
  else if sortBy = "price-desc" then ps.insertionSort priceDescRel
  else ps

/-- `get_products` (app.py:97-137): the product list computed by
`GET /api/products` (always wrapped in a `success: true` envelope, HTTP 200).
Parameter order follows the source: category (default `"all"`), price bounds
(absent when not supplied), sort key (default `"default"`), visibility flag
(default true). -/
def get_products (category : String) (minPrice maxPrice : Option Rat) (sortBy : String)
    (visibleOnly : Bool) (ps : List Product) : List Product :=
  sortStep sortBy (applyFilters visibleOnly category minPrice maxPrice ps)

/-- `get_product` (app.py:139-154): `next((p for p in products if p.get('id') == product_id), None)`,
wrapped as HTTP 200 on a hit and HTTP 404 `{success: false}` on a miss. -/
def get_product (product_id : Int) (ps : List Product) : ApiResp Product :=
  match ps.find? (fun p => decide (p.id = some product_id)) with
  | some p => .ok 200 p
  | none => .err 404 "Product not found"

/-- Python slice `l[:limit]` for a possibly negative `limit`. -/
def pySlice {α : Type} (l : List α) (limit : Int) : List α :=
  if limit < 0 then l.take ((l.length : Int) + limit).toNat else l.take limit.toNat

/-- `get_featured_products` (app.py:156-172): keep visible records, then slice
off the first `limit` (query parameter, default 8). -/
def get_featured_products (limitParam : Option Int) (ps : List Product) : List Product :=
  let visible_products := ps.filter (fun p => p.visible.getD true)
  let limit := limitParam.getD 8
  pySlice visible_products limit

/-- One record's match test in `search_products` (app.py:205-209): the query
occurs in the lowercased name, code, or description (all defaulting to `""`). -/
def matchesQuery (query : String) (p : Product) : Bool :=
  hasSub (pyLower (p.name.getD "")).data query.data
  || hasSub (pyLower (p.code.getD "")).data query.data
  || hasSub (pyLower (p.description.getD "")).data query.data

/-- `search_products` (app.py:185-217): the query parameter `q` (default `""`)
is lowercased and stripped; a blank result is rejected with HTTP 400, otherwise
the visible records matching the processed query are returned with HTTP 200. -/
def search_products (q : String) (ps : List Product) : ApiResp (List Product) :=
  let query := pyStrip (pyLower q)
  if query = "" then ApiResp.err 400 "Search query is required"
  else ApiResp.ok 200 (ps.filter (fun p => p.visible.getD true && matchesQuery query p))

/-- Modelled from the claim wording of C2: a record missing the category field
is treated as having category `""` (the empty string).  The source instead
compares `p.get('category')` (which is `None` when absent) against the
parameter. -/
def claimCategoryKeep (category : String) (p : Product) : Bool :=
  decide (p.category.getD "" = category)

/-- Modelled from the claim wording of C3: the visible records matching the
query itself as a case-insensitive substring of name, code, or description.
The source instead matches against the whitespace-stripped query. -/
def claimSearchResults (q : String) (ps : List Product) : List Product :=
  ps.filter (fun p => p.visible.getD true && matchesQuery (pyLower q) p)

/-- Modelled from the claim wording of C6: the first `limit` visible records in
store order (with `limit` clamped below at zero, since a negative count of
records is empty).  The source instead applies Python slice semantics, where a
negative `limit` drops records from the end. -/
def claimFeatured (limitParam : Option Int) (ps : List Product) : List Product :=
  (ps.filter (fun p => p.visible.getD true)).take (limitParam.getD 8).toNat

/-- Sample record with no fields at all (legal, since the source reads every
field through `dict.get`). -/
def prodNoFields : Product := ⟨none, none, none, none, none, none, none⟩

/-- Sample record carrying a category, used to witness C2. -/
def prodCat : Product := ⟨some 1, some "Cable", none, none, some "electronics", some 5, none⟩

/-- Sample record named "TV", used for the C3 counterexample. -/
def prodTV : Product := ⟨some 2, some "TV", none, none, none, some 100, none⟩

/-- Sample visible record matching the query "tv", used to witness C7. -/
def prodVis : Product := ⟨some 3, some "TV stand", none, none, none, some 40, none⟩

/-- Sample visible record, first in store order, used for C6. -/
def prodA6 : Product := ⟨some 4, some "Alpha", none, none, none, some 10, none⟩

/-- Sample visible record, second in store order, used for C6. -/
def prodB6 : Product := ⟨some 5, some "Beta", none, none, none, some 5, none⟩

/-- Sample record used to witness C9. -/
def prodS9 : Product := ⟨some 6, some "Gamma", none, none, none, some 7, none⟩

/-- Sample record with id 7, first in store order, used for C10. -/
def prodDupFirst : Product := ⟨some 7, some "first", none, none, none, none, none⟩

/-- Sample record reusing id 7, second in store order, used for C10. -/
def prodDupSecond : Product := ⟨some 7, some "second", none, none, none, none, none⟩

theorem lexLe_refl : ∀ l : List Char, lexLe l l = true := by
  intro l
  induction l with
  | nil => rfl
  | cons a as ih => simp [lexLe, ih]

theorem lexLe_total : ∀ a b : List Char, lexLe a b = true ∨ lexLe b a = true := by
  intro a
  induction a with
  | nil => intro b; left; rfl
  | cons x xs ih =>
    intro b
    cases b with
    | nil => right; rfl
    | cons y ys =>
      by_cases hxy : x.toNat = y.toNat
      · rcases ih ys with h | h
        · left; simp [lexLe, hxy, h]
        · right; simp [lexLe, hxy.symm, h]
      · rcases Nat.lt_or_ge x.toNat y.toNat with h | h
        · left; simp [lexLe, hxy, h]
        · have hyx : ¬ y.toNat = x.toNat := fun e => hxy e.symm
          have hlt : y.toNat < x.toNat := lt_of_le_of_ne h hyx
          right
          simp [lexLe, hyx, hlt]

theorem lexLe_trans : ∀ a b c : List Char,
    lexLe a b = true → lexLe b c = true → lexLe a c = true := by
  intro a
  induction a with
  | nil => intro b c _ _; rfl
  | cons x xs ih =>
    intro b c hab hbc
    cases b with
    | nil => simp [lexLe] at hab
    | cons y ys =>
      cases c with
      | nil => simp [lexLe] at hbc
      | cons z zs =>
        simp only [lexLe] at hab hbc ⊢
        by_cases hxy : x.toNat = y.toNat
        · by_cases hyz : y.toNat = z.toNat
          · have hxz : x.toNat = z.toNat := hxy.trans hyz
            simp [hxy] at hab
            simp [hyz] at hbc
            simp [hxz, ih ys zs hab hbc]
          · simp [hyz] at hbc
            have hxz : x.toNat ≠ z.toNat := by omega
            have : x.toNat < z.toNat := by omega
            simp [hxz, this]
        · simp [hxy] at hab
          by_cases hyz : y.toNat = z.toNat
          · have hxz : x.toNat ≠ z.toNat := by omega
            have : x.toNat < z.toNat := by omega
            simp [hxz, this]
          · simp [hyz] at hbc
            have hxz : x.toNat ≠ z.toNat := by omega
            have : x.toNat < z.toNat := by omega
            simp [hxz, this]

instance : IsTotal Product nameAscRel :=
  ⟨fun a b => lexLe_total (nameKey a) (nameKey b)⟩

instance : IsTotal Product nameDescRel :=
  ⟨fun a b => by unfold nameDescRel; exact lexLe_total (nameKey b) (nameKey a)⟩

instance : IsTotal Product priceAscRel :=
  ⟨fun a b => le_total (priceKey a) (priceKey b)⟩

instance : IsTotal Product priceDescRel :=
  ⟨fun a b => le_total (priceKey b) (priceKey a)⟩

instance : IsTrans Product nameAscRel :=
  ⟨fun _ _ _ h h2 => lexLe_trans _ _ _ h h2⟩

instance : IsTrans Product nameDescRel :=
  ⟨fun _ _ _ h h2 => lexLe_trans _ _ _ h2 h⟩

instance : IsTrans Product priceAscRel :=
  ⟨fun _ _ _ h h2 => le_trans h h2⟩

instance : IsTrans Product priceDescRel :=
  ⟨fun _ _ _ h h2 => le_trans h2 h⟩

/-! ### Helper lemmas about the filter, sort, and search stages -/

theorem mem_filterVisible {vo : Bool} {ps : List Product} {p : Product} :
    p ∈ filterVisible vo ps ↔ p ∈ ps ∧ (vo = true → p.visible.getD true = true) := by
  cases vo <;> simp [filterVisible, List.mem_filter]

theorem mem_filterCategory {cat : String} {ps : List Product} {p : Product} :
    p ∈ filterCategory cat ps ↔ p ∈ ps ∧ (cat ≠ "all" → p.category = some cat) := by
  by_cases h : cat = "all" <;> simp [filterCategory, h, List.mem_filter]

theorem mem_filterMinPrice {minP : Option Rat} {ps : List Product} {p : Product} :
    p ∈ filterMinPrice minP ps ↔ p ∈ ps ∧ ∀ m, minP = some m → m ≤ p.price.getD 0 := by
  cases minP <;> simp [filterMinPrice, List.mem_filter, ge_iff_le]

theorem mem_filterMaxPrice {maxP : Option Rat} {ps : List Product} {p : Product} :
    p ∈ filterMaxPrice maxP ps ↔ p ∈ ps ∧ ∀ m, maxP = some m → p.price.getD 0 ≤ m := by
  cases maxP <;> simp [filterMaxPrice, List.mem_filter]

theorem mem_applyFilters {vo : Bool} {cat : String} {minP maxP : Option Rat}
    {ps : List Product} {p : Product} :
    p ∈ applyFilters vo cat minP maxP ps ↔
      p ∈ ps ∧ (vo = true → p.visible.getD true = true) ∧ (cat ≠ "all" → p.category = some cat)
        ∧ (∀ m, minP = some m → m ≤ p.price.getD 0) ∧ (∀ m, maxP = some m → p.price.getD 0 ≤ m) := by
  simp [applyFilters, mem_filterMaxPrice, mem_filterMinPrice, mem_filterCategory,
    mem_filterVisible, and_assoc]

theorem mem_sortStep {s : String} {ps : List Product} {p : Product} :
    p ∈ sortStep s ps ↔ p ∈ ps := by
  unfold sortStep
  split_ifs <;> simp [List.mem_insertionSort]

theorem visible_getD_iff {p : Product} :
    p.visible.getD true = true ↔ p.visible ≠ some false := by
  cases h : p.visible with
  | none => simp
  | some b => cases b <;> simp

theorem insertionSort_filter_key {α κ : Type} [DecidableEq κ] (r : α → α → Prop)
    [DecidableRel r] (keyf : α → κ) (hr : ∀ a b, keyf a = keyf b → r a b)
    (l : List α) (v : κ) :
    (l.insertionSort r).filter (fun x => decide (keyf x = v)) =
      l.filter (fun x => decide (keyf x = v)) := by
  set c := l.filter (fun x => decide (keyf x = v)) with hc
  have hkey : ∀ x ∈ c, keyf x = v := by
    intro x hx
    have := (List.mem_filter.mp hx).2
    simpa using this
  have hpw : c.Pairwise r :=
    List.pairwise_of_forall_mem_list (fun a ha b hb => hr a b ((hkey a ha).trans (hkey b hb).symm))
  have hsub : List.Sublist c (l.insertionSort r) :=
    List.sublist_insertionSort hpw (by rw [hc]; exact List.filter_sublist l)
  have hsub2 : List.Sublist c ((l.insertionSort r).filter (fun x => decide (keyf x = v))) := by
    have hstep := hsub.filter (fun x => decide (keyf x = v))
    rwa [List.filter_eq_self.mpr (fun a ha => by simpa using hkey a ha)] at hstep
  have hperm : List.Perm ((l.insertionSort r).filter (fun x => decide (keyf x = v))) c :=
    (List.perm_insertionSort r l).filter _
  exact (hsub2.eq_of_length hperm.length_eq.symm).symm

theorem sortStep_default (ps : List Product) : sortStep "default" ps = ps := by
  simp [sortStep]

theorem sortStep_name_asc (ps : List Product) :
    sortStep "name-asc" ps = ps.insertionSort nameAscRel := by
  simp [sortStep]

theorem sortStep_name_desc (ps : List Product) :
    sortStep "name-desc" ps = ps.insertionSort nameDescRel := by
  simp [sortStep]

theorem sortStep_price_asc (ps : List Product) :
    sortStep "price-asc" ps = ps.insertionSort priceAscRel := by
  simp [sortStep]

theorem sortStep_price_desc (ps : List Product) :
    sortStep "price-desc" ps = ps.insertionSort priceDescRel := by
  simp [sortStep]

/-! ### The claims -/

/-- C1, counterexample: loading a malformed translations document does not
degrade to an empty mapping — `load_translations` only catches
`FileNotFoundError`, so the JSON decode error is raised to the caller. -/
theorem C1_counterexample :
    raised (load_translations FileContent.malformed) = true
    ∧ load_translations FileContent.malformed ≠ Except.ok [] := by
  constructor
  · rfl
  · intro h
    cases h

/-- C1 (amended): the product-list load returns an empty sequence and never
raises on a missing or malformed file; the translation-table load returns an
empty mapping on a missing file, but raises on malformed content. -/
theorem C1_load_degradation :
    load_products FileContent.missing = Except.ok []
    ∧ load_products FileContent.malformed = Except.ok []
    ∧ (∀ ps, load_products (FileContent.valid ps) = Except.ok ps)
    ∧ (∀ fs, raised (load_products fs) = false)
    ∧ load_translations FileContent.missing = Except.ok []
    ∧ raised (load_translations FileContent.malformed) = true := by
  refine ⟨rfl, rfl, fun ps => rfl, fun fs => ?_, rfl, rfl⟩
  cases fs <;> rfl

/-- C2, counterexample: with category parameter `""` (reachable via
`?category=`), a record missing the category field is dropped by the source
(`None == ""` is false in Python), while the claim's reading (missing category
treated as `""`) would keep it. -/
theorem C2_counterexample :
    filterCategory "" [prodNoFields] ≠ [prodNoFields].filter (claimCategoryKeep "") := by
  decide

/-- C2 (amended): for a category parameter other than "all", the category
filter keeps exactly the records whose category field is present and equal to
the parameter by exact case-sensitive comparison; a record missing the
category field matches no parameter value. -/
theorem C2_category_filter (cat : String) (ps : List Product) (p : Product)
    (h : cat ≠ "all") :
    p ∈ filterCategory cat ps ↔ p ∈ ps ∧ p.category = some cat := by
  simp [mem_filterCategory, h]

/-- C2, witness of the amended theorem at a concrete input. -/
theorem C2_witness :
    prodCat ∈ filterCategory "electronics" [prodCat] ↔
      prodCat ∈ [prodCat] ∧ prodCat.category = some "electronics" :=
  C2_category_filter "electronics" [prodCat] prodCat (by decide)

/-- C3, counterexample: the query `" TV "` is not blank, and the claim then
promises exactly the records matching `" TV "` case-insensitively (none, for a
record named "TV"); the source instead matches the whitespace-stripped query
and returns the record. -/
theorem C3_counterexample :
    pyStrip (pyLower " TV ") ≠ ""
    ∧ search_products " TV " [prodTV] ≠ ApiResp.ok 200 (claimSearchResults " TV " [prodTV]) := by
  constructor
  · decide
  · decide

/-- C3 (amended): a query that is empty or whitespace-only after lowercasing
and stripping yields HTTP 400 with `success=false`; otherwise the search
succeeds and returns exactly the visible records whose name, code, or
description contains the stripped, lowercased query as a substring. -/
theorem C3_search (q : String) (ps : List Product) :
    if pyStrip (pyLower q) = "" then
      search_products q ps = ApiResp.err 400 "Search query is required"
    else
      ∃ rs, search_products q ps = ApiResp.ok 200 rs ∧
        ∀ p, p ∈ rs ↔ p ∈ ps ∧ p.visible ≠ some false
          ∧ matchesQuery (pyStrip (pyLower q)) p = true := by
  by_cases h : pyStrip (pyLower q) = ""
  · rw [if_pos h]
    unfold search_products
    rw [if_pos h]
  · rw [if_neg h]
    refine ⟨_, by unfold search_products; rw [if_neg h], fun p => ?_⟩
    simp [List.mem_filter, visible_getD_iff, and_assoc]

/-- C4: the sort step.  `sort=default` leaves the input unchanged; each of the
four recognised keys produces a permutation of its input ordered by the
corresponding comparison (case-insensitive lexicographic on the lowercased
name, numeric on the price, reversed for the descending variants), and for
every sort-key value the records carrying that key keep their relative input
order (stability). -/
theorem C4_sort_behaviour (ps : List Product) :
    sortStep "default" ps = ps
    ∧ List.Perm (sortStep "name-asc" ps) ps
    ∧ (sortStep "name-asc" ps).Pairwise nameAscRel
    ∧ (∀ v : List Char, (sortStep "name-asc" ps).filter (fun p => decide (nameKey p = v))
        = ps.filter (fun p => decide (nameKey p = v)))
    ∧ List.Perm (sortStep "name-desc" ps) ps
    ∧ (sortStep "name-desc" ps).Pairwise nameDescRel
    ∧ (∀ v : List Char, (sortStep "name-desc" ps).filter (fun p => decide (nameKey p = v))
        = ps.filter (fun p => decide (nameKey p = v)))
    ∧ List.Perm (sortStep "price-asc" ps) ps
    ∧ (sortStep "price-asc" ps).Pairwise priceAscRel
    ∧ (∀ v : Rat, (sortStep "price-asc" ps).filter (fun p => decide (priceKey p = v))
        = ps.filter (fun p => decide (priceKey p = v)))
    ∧ List.Perm (sortStep "price-desc" ps) ps
    ∧ (sortStep "price-desc" ps).Pairwise priceDescRel
    ∧ (∀ v : Rat, (sortStep "price-desc" ps).filter (fun p => decide (priceKey p = v))
        = ps.filter (fun p => decide (priceKey p = v))) := by
  rw [sortStep_default, sortStep_name_asc, sortStep_name_desc, sortStep_price_asc,
    sortStep_price_desc]
  refine ⟨rfl,
    List.perm_insertionSort _ _, List.sorted_insertionSort _ _,
    fun v => insertionSort_filter_key nameAscRel nameKey (fun a b h => ?_) ps v,
    List.perm_insertionSort _ _, List.sorted_insertionSort _ _,
    fun v => insertionSort_filter_key nameDescRel nameKey (fun a b h => ?_) ps v,
    List.perm_insertionSort _ _, List.sorted_insertionSort _ _,
    fun v => insertionSort_filter_key priceAscRel priceKey (fun a b h => ?_) ps v,
    List.perm_insertionSort _ _, List.sorted_insertionSort _ _,
    fun v => insertionSort_filter_key priceDescRel priceKey (fun a b h => ?_) ps v⟩
  · unfold nameAscRel
    rw [h]
    exact lexLe_refl _
  · unfold nameDescRel
    rw [h]
    exact lexLe_refl _
  · exact le_of_eq h
  · exact le_of_eq h.symm

/-- C5: the two price filter steps keep exactly the records whose defaulted
price (`p.get('price', 0)`) lies within the given bounds, both inclusive. -/
theorem C5_price_bounds (minP maxP : Option Rat) (ps : List Product) (p : Product) :
    p ∈ filterMaxPrice maxP (filterMinPrice minP ps) ↔
      p ∈ ps ∧ (∀ m, minP = some m → m ≤ p.price.getD 0)
        ∧ (∀ m, maxP = some m → p.price.getD 0 ≤ m) := by
  simp [mem_filterMaxPrice, mem_filterMinPrice, and_assoc]

/-- Elements of a Python slice `l[:limit]` come from `l` (helper for C6/C7). -/
theorem mem_of_mem_pySlice {α : Type} {l : List α} {lim : Int} {x : α}
    (h : x ∈ pySlice l lim) : x ∈ l := by
  unfold pySlice at h
  split at h <;> exact (List.take_sublist _ _).subset h

/-- C6, counterexample: for `limit=-1` (accepted by the endpoint), the source
applies Python slice semantics and returns all but the last visible record,
not "the first `limit` records" as the claim states. -/
theorem C6_counterexample :
    get_featured_products (some (-1)) [prodA6, prodB6]
      ≠ claimFeatured (some (-1)) [prodA6, prodB6] := by
  decide

/-- C6 (amended): for every nonnegative limit (default 8 when absent) the
featured endpoint returns the first `limit` visible records in store order,
unsorted; a negative limit instead follows Python slice semantics and keeps
all but the last `|limit|` visible records. -/
theorem C6_featured (limitParam : Option Int) (ps : List Product) :
    (0 ≤ limitParam.getD 8 →
      get_featured_products limitParam ps =
        (ps.filter (fun p => p.visible.getD true)).take (limitParam.getD 8).toNat)
    ∧ (limitParam.getD 8 < 0 →
      get_featured_products limitParam ps =
        (ps.filter (fun p => p.visible.getD true)).take
          (((ps.filter (fun p => p.visible.getD true)).length : Int) + limitParam.getD 8).toNat)
    ∧ get_featured_products none ps = get_featured_products (some 8) ps := by
  refine ⟨fun h => ?_, fun h => ?_, rfl⟩
  · unfold get_featured_products pySlice
    rw [if_neg (by omega)]
  · unfold get_featured_products pySlice
    rw [if_pos h]

/-- C6, witness of the amended theorem at concrete inputs (limits 1 and -1). -/
theorem C6_witness :
    get_featured_products (some 1) [prodA6, prodB6] =
      (([prodA6, prodB6] : List Product).filter (fun p => p.visible.getD true)).take
        ((some (1 : Int)).getD 8).toNat
    ∧ get_featured_products (some (-1)) [prodA6, prodB6] =
      (([prodA6, prodB6] : List Product).filter (fun p => p.visible.getD true)).take
        (((([prodA6, prodB6] : List Product).filter (fun p => p.visible.getD true)).length : Int)
          + (some (-1 : Int)).getD 8).toNat :=
  ⟨(C6_featured (some 1) [prodA6, prodB6]).1 (by decide),
   (C6_featured (some (-1)) [prodA6, prodB6]).2.1 (by decide)⟩

/-- C7: with `visible_only` true (the default), no record returned by the
listing, search, or featured operations has `visible=false`; a record missing
the visible field passes the visibility filter. -/
theorem C7_visible_only (ps : List Product) :
    (∀ p, p ∈ filterVisible true ps ↔ p ∈ ps ∧ p.visible ≠ some false)
    ∧ (∀ (cat : String) (minP maxP : Option Rat) (sortBy : String) (p : Product),
        p ∈ get_products cat minP maxP sortBy true ps → p.visible ≠ some false)
    ∧ (∀ (q : String) (rs : List Product) (p : Product),
        search_products q ps = ApiResp.ok 200 rs → p ∈ rs → p.visible ≠ some false)
    ∧ (∀ (limitParam : Option Int) (p : Product),
        p ∈ get_featured_products limitParam ps → p.visible ≠ some false) := by
  refine ⟨fun p => ?_, fun cat minP maxP sortBy p hp => ?_, fun q rs p hq hp => ?_,
    fun limitParam p hp => ?_⟩
  · rw [mem_filterVisible]
    simp [visible_getD_iff]
  · unfold get_products at hp
    have h2 := mem_applyFilters.mp (mem_sortStep.mp hp)
    exact visible_getD_iff.mp (h2.2.1 rfl)
  · unfold search_products at hq
    by_cases hblank : pyStrip (pyLower q) = ""
    · rw [if_pos hblank] at hq
      simp at hq
    · rw [if_neg hblank] at hq
      rw [ApiResp.ok.injEq] at hq
      obtain ⟨-, rfl⟩ := hq
      have hcond := (List.mem_filter.mp hp).2
      rw [Bool.and_eq_true] at hcond
      exact visible_getD_iff.mp hcond.1
  · unfold get_featured_products at hp
    have := mem_of_mem_pySlice hp
    exact visible_getD_iff.mp (List.mem_filter.mp this).2

/-- C7, witness: one concrete record flowing through all three operations. -/
theorem C7_witness :
    prodVis.visible ≠ some false
    ∧ prodVis.visible ≠ some false
    ∧ prodVis.visible ≠ some false :=
  ⟨(C7_visible_only [prodVis]).2.1 "all" none none "default" prodVis (by decide),
   (C7_visible_only [prodVis]).2.2.1 "tv" [prodVis] prodVis (by decide) (by decide),
   (C7_visible_only [prodVis]).2.2.2 (some 3) prodVis (by decide)⟩

/-- C8: the filter stage of the listing pipeline is idempotent — applying the
same filters to their own output changes nothing. -/
theorem C8_filter_idempotent (vo : Bool) (cat : String) (minP maxP : Option Rat)
    (ps : List Product) :
    applyFilters vo cat minP maxP (applyFilters vo cat minP maxP ps)
      = applyFilters vo cat minP maxP ps := by
  have hmem : ∀ p ∈ applyFilters vo cat minP maxP ps,
      (vo = true → p.visible.getD true = true) ∧ (cat ≠ "all" → p.category = some cat)
        ∧ (∀ m, minP = some m → m ≤ p.price.getD 0)
        ∧ (∀ m, maxP = some m → p.price.getD 0 ≤ m) :=
    fun p hp => (mem_applyFilters.mp hp).2
  set l := applyFilters vo cat minP maxP ps with hl
  have hvis : filterVisible vo l = l := by
    cases vo with
    | false => rfl
    | true =>
      have hstep : filterVisible true l = l.filter (fun p => p.visible.getD true) := by
        simp [filterVisible]
      rw [hstep]
      exact List.filter_eq_self.mpr (fun p hp => (hmem p hp).1 rfl)
  have hcat : filterCategory cat l = l := by
    by_cases h : cat = "all"
    · unfold filterCategory
      rw [if_neg (by simp [h])]
    · unfold filterCategory
      rw [if_pos h]
      exact List.filter_eq_self.mpr (fun p hp => by simpa using (hmem p hp).2.1 h)
  have hmin : filterMinPrice minP l = l := by
    cases minP with
    | none => rfl
    | some m =>
      show l.filter (fun p => decide (p.price.getD 0 ≥ m)) = l
      exact List.filter_eq_self.mpr
        (fun p hp => by simpa [ge_iff_le] using (hmem p hp).2.2.1 m rfl)
  have hmax : filterMaxPrice maxP l = l := by
    cases maxP with
    | none => rfl
    | some m =>
      show l.filter (fun p => decide (p.price.getD 0 ≤ m)) = l
      exact List.filter_eq_self.mpr
        (fun p hp => by simpa using (hmem p hp).2.2.2 m rfl)
  show filterMaxPrice maxP (filterMinPrice minP (filterCategory cat (filterVisible vo l))) = l
  rw [hvis, hcat, hmin, hmax]

/-- C9: any sort parameter outside the four recognised values falls through
the `if/elif` chain: the filtered records stay in input order, identical to
`sort=default`, and the request is not rejected. -/
theorem C9_unknown_sort (s : String) (ps : List Product)
    (h1 : s ≠ "name-asc") (h2 : s ≠ "name-desc")
    (h3 : s ≠ "price-asc") (h4 : s ≠ "price-desc") :
    sortStep s ps = ps ∧ sortStep s ps = sortStep "default" ps := by
  have hid : sortStep s ps = ps := by
    unfold sortStep
    rw [if_neg h1, if_neg h2, if_neg h3, if_neg h4]
  exact ⟨hid, by rw [hid, sortStep_default]⟩

/-- C9, witness at the unrecognised sort value "banana". -/
theorem C9_witness :
    sortStep "banana" [prodS9] = [prodS9]
    ∧ sortStep "banana" [prodS9] = sortStep "default" [prodS9] :=
  C9_unknown_sort "banana" [prodS9] (by decide) (by decide) (by decide) (by decide)

/-- C10: the single-product lookup returns HTTP 200 with the first record in
store order whose id equals the request (so the earliest of duplicate ids
wins), and returns HTTP 404 `{success: false, error: "Product not found"}`
exactly when no record has that id. -/
theorem C10_single_product (pid : Int) (ps : List Product) :
    (∀ p, get_product pid ps = ApiResp.ok 200 p →
        p.id = some pid ∧ ∃ l1 l2, ps = l1 ++ p :: l2 ∧ ∀ q ∈ l1, q.id ≠ some pid)
    ∧ (get_product pid ps = ApiResp.err 404 "Product not found" ↔
        ∀ p ∈ ps, p.id ≠ some pid) := by
  constructor
  · intro p hp
    unfold get_product at hp
    cases hfind : ps.find? (fun x => decide (x.id = some pid)) with
    | none =>
      rw [hfind] at hp
      simp at hp
    | some r =>
      rw [hfind] at hp
      rw [ApiResp.ok.injEq] at hp
      obtain ⟨-, rfl⟩ := hp
      obtain ⟨hpred, as, bs, heq, hprev⟩ := List.find?_eq_some.mp hfind
      refine ⟨by simpa using hpred, as, bs, heq, fun q hq => ?_⟩
      simpa using hprev q hq
  · unfold get_product
    cases hfind : ps.find? (fun x => decide (x.id = some pid)) with
    | none =>
      simp only
      constructor
      · intro _ p hp
        simpa using List.find?_eq_none.mp hfind p hp
      · intro _
        trivial
    | some r =>
      simp only
      constructor
      · intro h
        cases h
      · intro hall
        have hr := List.find?_some hfind
        have hmem := List.mem_of_find?_eq_some hfind
        exact absurd (by simpa using hr) (hall r hmem)

/-- C10, witness: duplicate id 7 resolves to the earliest record; an unknown
id 9 yields the 404 condition. -/
theorem C10_witness :
    (prodDupFirst.id = some 7
      ∧ ∃ l1 l2, ([prodDupFirst, prodDupSecond] : List Product) = l1 ++ prodDupFirst :: l2
          ∧ ∀ q ∈ l1, q.id ≠ some 7)
    ∧ ∀ p ∈ ([prodDupFirst, prodDupSecond] : List Product), p.id ≠ some 9 :=
  ⟨(C10_single_product 7 [prodDupFirst, prodDupSecond]).1 prodDupFirst (by decide),
   (C10_single_product 9 [prodDupFirst, prodDupSecond]).2.mp (by decide)⟩
